import Mathlib

/-!
Verification development for the oneMoreGame gaming-cafe booking server.

The embedding covers, from `src/server.js` (the overlap-check variant that
matches the spec's data model: statuses `confirmed`/`completed`, per-station
`rate_per_hour`, derived `duration_hours`/`total_price`):
  * `timeToMinutes` and `computeDurationHours` (JS helpers, including the
    NaN behaviour of `Number` on malformed strings),
  * the `POST /api/bookings` handler (`createBooking`),
  * the `POST /api/bookings/:id/complete` handler (`completeBooking`),
and from the React component `BookingPreview` (`src/unnamed/part_002`):
  * `computeStationStatus`, the client-side live-status derivation.

JS numbers are modelled by `JSNum` (either NaN or an exact rational); the
fragments of JS arithmetic exercised by the code propagate NaN and make all
NaN comparisons false, exactly as in JS.  SQL `TIME` values are modelled as
minutes since midnight; `sqlTime?` models the Postgres cast of an `HH:MM`
literal (a string not of that shape makes the query throw, surfaced by the
route's catch-all as a 500, modelled by `CreateResult.dbError`).
-/

/-- A JS number restricted to what the booking code exercises: either NaN or
an exact rational value. -/
inductive JSNum where
  | nan : JSNum
  | val : ℚ → JSNum
deriving DecidableEq

/-- JS addition: NaN propagates. -/
def jsAdd : JSNum → JSNum → JSNum
  | .val a, .val b => .val (a + b)
  | _, _ => .nan

/-- JS subtraction: NaN propagates. -/
def jsSub : JSNum → JSNum → JSNum
  | .val a, .val b => .val (a - b)
  | _, _ => .nan

/-- JS multiplication: NaN propagates. -/
def jsMul : JSNum → JSNum → JSNum
  | .val a, .val b => .val (a * b)
  | _, _ => .nan

/-- JS division by a nonzero rational constant: NaN propagates. -/
def jsDivC : JSNum → ℚ → JSNum
  | .val a, c => .val (a / c)
  | .nan, _ => .nan

/-- JS `Math.round`: half-up rounding (⌊x + 1/2⌋); NaN maps to NaN. -/
def jsRound : JSNum → JSNum
  | .val a => .val (⌊a + 1/2⌋ : ℤ)
  | .nan => .nan

/-- JS `<=` comparison as used in `if (dur <= 0)`: any comparison with NaN
is false. -/
def jsLe : JSNum → JSNum → Bool
  | .val a, .val b => a ≤ b
  | _, _ => false

/-- JS `Number.EPSILON` (2⁻⁵²), added before rounding in the price formula. -/
def jsEPSILON : ℚ := 1 / 2 ^ 52

/-- Extracts the rational value of a JS number; NaN is mapped to 0.  Only
applied on paths where the value is provably numeric. -/
def jsToQ : JSNum → ℚ
  | .val a => a
  | .nan => 0

/-- Coercion of a JS array access that may be out of bounds: a missing
element is `undefined`, and `undefined` used in arithmetic yields NaN. -/
def jsOfOpt : Option JSNum → JSNum
  | some x => x
  | none => .nan

/-- Parses a list of characters as a decimal natural number; `none` when any
character is not a digit or the list is empty. -/
def digitsToNat? : List Char → Option Nat
  | [] => none
  | c :: cs =>
    if c.isDigit then
      let d := c.toNat - '0'.toNat
      match cs with
      | [] => some d
      | _ :: _ => (digitsToNat? cs).map (fun n => d * 10 ^ cs.length + n)
    else none

/-- Splits a character list on a separator, JS `String.split` style:
the empty list yields `[[]]` (JS: `"".split(":") = [""]`). -/
def splitCh (sep : Char) : List Char → List (List Char)
  | [] => [[]]
  | c :: cs =>
    let r := splitCh sep cs
    if c = sep then [] :: r
    else
      match r with
      | [] => [[c]]
      | h :: t => (c :: h) :: t

/-- Models JS `Number(s)` on the strings this code feeds it: the empty
string is 0, a pure digit string is its decimal value, anything else is
NaN. -/
def jsNumberOf (cs : List Char) : JSNum :=
  if cs = [] then .val 0
  else
    match digitsToNat? cs with
    | some n => .val n
    | none => .nan

/-- Embeds `timeToMinutes` from `src/server.js`: `null` (here `none`) on a
falsy string, otherwise `hh * 60 + mm` after `split(':').map(Number)`; a
missing or malformed component gives NaN. -/
def timeToMinutes (t : String) : Option JSNum :=
  if t.data = [] then none
  else
    let parts := (splitCh ':' t.data).map jsNumberOf
    some (jsAdd (jsMul (jsOfOpt (parts.get? 0)) (.val 60)) (jsOfOpt (parts.get? 1)))

/-- Embeds `computeDurationHours` from `src/server.js`:
`Math.round(((e - s) / 60) * 100) / 100`, with 0 returned when either
`timeToMinutes` gave `null`. -/
def computeDurationHours (start_time end_time : String) : JSNum :=
  match timeToMinutes start_time, timeToMinutes end_time with
  | some s, some e => jsDivC (jsRound (jsMul (jsDivC (jsSub e s) 60) (.val 100))) 100
  | _, _ => .val 0

/-- Models the Postgres cast of a bound parameter to `TIME` for literals of
the shape `H[H]:M[M]` with in-range fields, returning minutes since
midnight; any other string makes the query throw (forms with seconds are
not modelled, the code never produces them). -/
def sqlTime? (t : String) : Option Nat :=
  match splitCh ':' t.data with
  | [h, m] =>
    match digitsToNat? h, digitsToNat? m with
    | some hh, some mm => if hh < 24 ∧ mm < 60 then some (hh * 60 + mm) else none
    | _, _ => none
  | _ => none

/-- A row of the `stations` table (overlap-variant schema): `id`,
`station_name`, `specs`, `status`, `rate_per_hour DECIMAL(10,2)`. -/
structure Station where
  id : Nat
  station_name : String
  specs : String
  status : String
  rate_per_hour : ℚ
deriving DecidableEq

/-- A row of the `bookings` table (overlap-variant schema).  `start_time`
and `end_time` are `TIME` values stored as minutes since midnight;
`created_at` stands for the row's insertion timestamp. -/
structure Booking where
  id : Nat
  user_id : Option Nat
  station_id : Nat
  booking_date : String
  start_time : Nat
  end_time : Nat
  duration_hours : ℚ
  total_price : ℚ
  status : String
  booking_code : String
  created_at : Nat
deriving DecidableEq

/-- The database state seen by the handlers: the two tables plus the next
`SERIAL` id for bookings. -/
structure DB where
  stations : List Station
  bookings : List Booking
  nextId : Nat
deriving DecidableEq

/-- The JSON body of `POST /api/bookings`.  Absent fields are `none`; the
`status` field is never read by the handler's destructuring but is kept so
theorems can quantify over a client that tries to supply one. -/
structure BookingReq where
  name : Option String
  contact : Option String
  station_id : Option Nat
  booking_date : Option String
  start_time : Option String
  end_time : Option String
  user_id : Option Nat
  status : Option String
deriving DecidableEq

/-- JS falsiness of a possibly-absent string (`!x`): absent or empty. -/
def strFalsy : Option String → Bool
  | none => true
  | some s => s = ""

/-- JS falsiness of a possibly-absent number (`!x`): absent or zero. -/
def natFalsy : Option Nat → Bool
  | none => true
  | some n => n = 0

/-- State of the Google Sheet mirror: not configured (`sheet` is null),
reachable, or unreachable (`addRow` throws). -/
inductive SheetState where
  | unconfigured : SheetState
  | reachable : SheetState
  | unreachable : SheetState
deriving DecidableEq

/-- Observable outcome of the fire-and-forget mirror push: the handler
never called it, it skipped (no sheet), it appended a row, or it failed and
the error was caught and logged. -/
inductive MirrorOutcome where
  | notCalled : MirrorOutcome
  | skipped : MirrorOutcome
  | pushed : MirrorOutcome
  | failedLogged : MirrorOutcome
deriving DecidableEq

/-- Embeds `pushBookingToSheet` from `src/server.js`: returns at once when
no sheet is configured; a failing `addRow` is caught and logged, never
rethrown. -/
def pushBookingToSheet : SheetState → MirrorOutcome
  | .unconfigured => .skipped
  | .reachable => .pushed
  | .unreachable => .failedLogged

/-- HTTP-level result of `POST /api/bookings`: the four 400 rejections, the
500 raised when a malformed time literal reaches the SQL layer, or the 200
with the inserted row. -/
inductive CreateResult where
  | missingFields : CreateResult
  | invalidTimeOrder : CreateResult
  | conflict : CreateResult
  | invalidStation : CreateResult
  | dbError : CreateResult
  | success : Booking → CreateResult
deriving DecidableEq

/-- Predicate of the conflict query in `POST /api/bookings`: same station,
same date, status in `('confirmed', 'Active')`, and
`NOT (end_time <= $3 OR start_time >= $4)` against the candidate
`[s, e)`. -/
def conflictRow (sid : Nat) (date : String) (s e : Nat) (b : Booking) : Bool :=
  b.station_id = sid && b.booking_date = date &&
    (b.status = "confirmed" || b.status = "Active") &&
    !(b.end_time ≤ s || b.start_time ≥ e)

/-- Embeds the `POST /api/bookings` handler from `src/server.js` (overlap
variant): falsy-field check, `computeDurationHours`-based time-order guard,
overlap query, station lookup with rate, price rounding with
`Number.EPSILON`, insert with hard-coded status `'confirmed'`, then the
non-awaited mirror push.  `bookingCode` stands for the generated
`'KB' + Date.now() + randomHex` token and `createdAt` for the row
timestamp. -/
def createBooking (db : DB) (req : BookingReq) (bookingCode : String)
    (createdAt : Nat) (sheet : SheetState) : CreateResult × DB × MirrorOutcome :=
  if strFalsy req.name || natFalsy req.station_id || strFalsy req.booking_date
      || strFalsy req.start_time || strFalsy req.end_time then
    (.missingFields, db, .notCalled)
  else
    match req.station_id, req.booking_date, req.start_time, req.end_time with
    | some sid, some date, some st, some et =>
      let dur := computeDurationHours st et
      if jsLe dur (.val 0) then (.invalidTimeOrder, db, .notCalled)
      else
        match sqlTime? st, sqlTime? et with
        | some s, some e =>
          if 0 < (db.bookings.filter (conflictRow sid date s e)).length then
            (.conflict, db, .notCalled)
          else
            match db.stations.find? (fun x => x.id = sid) with
            | none => (.invalidStation, db, .notCalled)
            | some stn =>
              let duration_hours : ℚ := jsToQ dur
              let total_price : ℚ :=
                jsToQ (jsDivC (jsRound (jsMul (jsAdd (jsMul dur (.val stn.rate_per_hour))
                  (.val jsEPSILON)) (.val 100))) 100)
              let newB : Booking :=
                { id := db.nextId
                  user_id := if natFalsy req.user_id then none else req.user_id
                  station_id := sid
                  booking_date := date
                  start_time := s
                  end_time := e
                  duration_hours := duration_hours
                  total_price := total_price
                  status := "confirmed"
                  booking_code := bookingCode
                  created_at := createdAt }
              (.success newB,
                { stations := db.stations
                  bookings := db.bookings ++ [newB]
                  nextId := db.nextId + 1 },
                pushBookingToSheet sheet)
        | _, _ => (.dbError, db, .notCalled)
    | _, _, _, _ => (.missingFields, db, .notCalled)

/-- HTTP-level result of `POST /api/bookings/:id/complete`: 404 when the
`UPDATE ... RETURNING *` matched no row, else 200 with the updated row. -/
inductive CompleteResult where
  | notFound : CompleteResult
  | success : Booking → CompleteResult
deriving DecidableEq

/-- Embeds the `POST /api/bookings/:id/complete` handler from
`src/server.js`: `UPDATE bookings SET status = 'completed' WHERE id = $2
RETURNING *`, 404 when no row matched.  No check of the current status is
performed. -/
def completeBooking (db : DB) (id : Nat) : CompleteResult × DB :=
  let updated := db.bookings.map
    (fun b => if b.id = id then { b with status := "completed" } else b)
  let db' : DB := { db with bookings := updated }
  match updated.find? (fun b => b.id = id) with
  | none => (.notFound, db')
  | some b => (.success b, db')

/-- A booking row as the React client sees it after `GET /api/bookings`,
restricted to the fields `computeStationStatus` reads.  Times are minutes
since midnight (the client turns `date` + `time` strings into `Date`
objects; for rows dated today both sides live on the same day, so the
comparison reduces to time-of-day). -/
structure ClientBooking where
  station_id : Nat
  booking_date : String
  start_time : Nat
  end_time : Nat
  status : String
  user_name : String
deriving DecidableEq

/-- The client's wall clock: today's date string (`toISOString` date part)
and the elapsed milliseconds since local midnight. -/
structure Wallclock where
  date : String
  ms : Nat
deriving DecidableEq

/-- Result of the live-status derivation: AVAILABLE, or OCCUPIED with the
occupying booking and the whole-minute time remaining. -/
inductive LiveStatus where
  | available : LiveStatus
  | occupied : ClientBooking → Int → LiveStatus
deriving DecidableEq

/-- The predicate of the `bookings.find` callback in `computeStationStatus`
(`src/unnamed/part_002`): same station, dated today, not completed, and
`now >= start && now <= end` — a closed interval on both ends. -/
def occupiesNow (stationId : Nat) (now : Wallclock) (b : ClientBooking) : Bool :=
  if b.station_id ≠ stationId || b.booking_date ≠ now.date then false
  else if b.status = "completed" then false
  else b.start_time * 60000 ≤ now.ms && now.ms ≤ b.end_time * 60000

/-- The remaining-time computation of `computeStationStatus`:
`Math.max(0, Math.floor((end - now) / 60000))` in minutes. -/
def remainingMins (b : ClientBooking) (now : Wallclock) : Int :=
  max 0 (((b.end_time * 60000 : Int) - (now.ms : Int)).fdiv 60000)

/-- Embeds `computeStationStatus` from `src/unnamed/part_002`: the first
listed booking passing `occupiesNow` occupies the station; with none the
station is AVAILABLE. -/
def computeStationStatus (bookings : List ClientBooking) (stationId : Nat)
    (now : Wallclock) : LiveStatus :=
  match bookings.find? (occupiesNow stationId now) with
  | some b => .occupied b (remainingMins b now)
  | none => .available

/-- The pure rational value of `computeDurationHours` on two parsed times
(minutes since midnight): `Math.round(((e - s) / 60) * 100) / 100`. -/
def durQ (s e : Nat) : ℚ := ((⌊((e : ℚ) - (s : ℚ)) / 60 * 100 + 1/2⌋ : ℤ) : ℚ) / 100

/-- The pure rational value of the handler's price computation:
`Math.round((d * r + Number.EPSILON) * 100) / 100`. -/
def priceQ (d r : ℚ) : ℚ := ((⌊(d * r + jsEPSILON) * 100 + 1/2⌋ : ℤ) : ℚ) / 100

/-- The row inserted by a successful `POST /api/bookings`, expressed through
`durQ` and `priceQ`. -/
def newBookingOf (db : DB) (req : BookingReq) (bookingCode : String)
    (createdAt : Nat) (sid : Nat) (date : String) (s e : Nat) (rate : ℚ) : Booking :=
  { id := db.nextId
    user_id := if natFalsy req.user_id then none else req.user_id
    station_id := sid
    booking_date := date
    start_time := s
    end_time := e
    duration_hours := durQ s e
    total_price := priceQ (durQ s e) rate
    status := "confirmed"
    booking_code := bookingCode
    created_at := createdAt }

theorem digitsToNat?_ne_nil {cs : List Char} {n : Nat}
    (h : digitsToNat? cs = some n) : cs ≠ [] := by
  intro hcs
  rw [hcs] at h
  simp [digitsToNat?] at h

theorem jsNumberOf_of_digits {cs : List Char} {n : Nat}
    (h : digitsToNat? cs = some n) : jsNumberOf cs = .val (n : ℚ) := by
  unfold jsNumberOf
  rw [if_neg (digitsToNat?_ne_nil h), h]

theorem sqlTime?_ne_empty {t : String} {n : Nat} (h : sqlTime? t = some n) :
    t ≠ "" := by
  intro ht
  rw [ht] at h
  simp [sqlTime?, splitCh, String.data] at h

theorem timeToMinutes_of_sqlTime {t : String} {n : Nat}
    (h : sqlTime? t = some n) : timeToMinutes t = some (.val (n : ℚ)) := by
  unfold sqlTime? at h
  unfold timeToMinutes
  cases hs : splitCh ':' t.data with
  | nil => rw [hs] at h; exact absurd h (by simp)
  | cons a l =>
    cases l with
    | nil => rw [hs] at h; exact absurd h (by simp)
    | cons b l2 =>
      cases l2 with
      | cons c l3 => rw [hs] at h; exact absurd h (by simp)
      | nil =>
        rw [hs] at h
        simp only at h
        cases hha : digitsToNat? a with
        | none => rw [hha] at h; exact absurd h (by simp)
        | some hh =>
          cases hmm : digitsToNat? b with
          | none => rw [hha, hmm] at h; exact absurd h (by simp)
          | some mm =>
            rw [hha, hmm] at h
            have hdata : t.data ≠ [] := by
              intro hd
              rw [hd] at hs
              simp [splitCh] at hs
            rw [if_neg hdata]
            have h' : (if hh < 24 ∧ mm < 60 then some (hh * 60 + mm) else none)
                = some n := h
            have hn : n = hh * 60 + mm := by
              by_cases hr : hh < 24 ∧ mm < 60
              · rw [if_pos hr] at h'; exact (Option.some_injective _ h').symm
              · rw [if_neg hr] at h'; exact absurd h' (by simp)
            simp only [List.map_cons, List.map_nil, List.get?,
              jsNumberOf_of_digits hha, jsNumberOf_of_digits hmm, jsOfOpt,
              jsMul, jsAdd, hn]
            norm_num

theorem computeDurationHours_of_sql {st et : String} {s e : Nat}
    (hs : sqlTime? st = some s) (he : sqlTime? et = some e) :
    computeDurationHours st et = .val (durQ s e) := by
  unfold computeDurationHours
  rw [timeToMinutes_of_sqlTime hs, timeToMinutes_of_sqlTime he]
  simp only [jsSub, jsDivC, jsRound, jsMul, durQ]

theorem durQ_pos {s e : Nat} (h : s < e) : 0 < durQ s e := by
  unfold durQ
  have h1 : (1 : ℚ) ≤ (e : ℚ) - (s : ℚ) := by
    have : (s : ℚ) + 1 ≤ (e : ℚ) := by exact_mod_cast h
    linarith
  have h2 : (13 : ℚ) / 6 ≤ ((e : ℚ) - (s : ℚ)) / 60 * 100 + 1/2 := by linarith
  have h3 : (2 : ℤ) ≤ ⌊((e : ℚ) - (s : ℚ)) / 60 * 100 + 1/2⌋ := by
    have := Int.le_floor.mpr (le_trans (by norm_num : ((2 : ℤ) : ℚ) ≤ 13/6) h2)
    exact this
  have h4 : (2 : ℚ) ≤ ((⌊((e : ℚ) - (s : ℚ)) / 60 * 100 + 1/2⌋ : ℤ) : ℚ) := by
    exact_mod_cast h3
  linarith

theorem durQ_nonpos {s e : Nat} (h : e ≤ s) : durQ s e ≤ 0 := by
  unfold durQ
  have h1 : (e : ℚ) - (s : ℚ) ≤ 0 := by
    have : (e : ℚ) ≤ (s : ℚ) := by exact_mod_cast h
    linarith
  have h2 : ((e : ℚ) - (s : ℚ)) / 60 * 100 + 1/2 ≤ 1/2 := by linarith
  have h3 : ⌊((e : ℚ) - (s : ℚ)) / 60 * 100 + 1/2⌋ ≤ 0 := by
    have := Int.floor_le_floor h2
    simpa using le_trans this (by norm_num)
  have h4 : ((⌊((e : ℚ) - (s : ℚ)) / 60 * 100 + 1/2⌋ : ℤ) : ℚ) ≤ 0 := by
    exact_mod_cast h3
  linarith

theorem floor_eps_eq (x : ℤ) :
    ⌊(x : ℚ) / 100 + 100 * jsEPSILON + 1/2⌋ = ⌊(x : ℚ) / 100 + 1/2⌋ := by
  have hdiv : (100 : ℤ) * ((x + 50) / 100) + (x + 50) % 100 = x + 50 :=
    Int.ediv_add_emod (x + 50) 100
  set q : ℤ := (x + 50) / 100 with hq
  set r : ℤ := (x + 50) % 100 with hr
  have hr0 : 0 ≤ r := Int.emod_nonneg _ (by norm_num)
  have hr1 : r < 100 := Int.emod_lt_of_pos _ (by norm_num)
  have hbase : (x : ℚ) / 100 + 1/2 = (q : ℚ) + (r : ℚ) / 100 := by
    have : ((100 * q + r : ℤ) : ℚ) = ((x + 50 : ℤ) : ℚ) := by exact_mod_cast hdiv
    push_cast at this
    field_simp
    linarith
  have hrq0 : (0 : ℚ) ≤ (r : ℚ) / 100 := by positivity
  have hrq1 : (r : ℚ) / 100 ≤ 99 / 100 := by
    have : (r : ℚ) ≤ 99 := by exact_mod_cast Int.lt_add_one_iff.mp hr1
    linarith
  have heps : (0 : ℚ) < 100 * jsEPSILON ∧ 100 * jsEPSILON < 1 / 100 := by
    constructor <;> norm_num [jsEPSILON]
  have hbase2 : (x : ℚ) / 100 + 100 * jsEPSILON + 1/2
      = (q : ℚ) + ((r : ℚ) / 100 + 100 * jsEPSILON) := by
    have := hbase
    ring_nf
    ring_nf at this
    linarith
  have hL : ⌊(q : ℚ) + ((r : ℚ) / 100 + 100 * jsEPSILON)⌋ = q := by
    rw [Int.floor_int_add]
    have hz : ⌊(r : ℚ) / 100 + 100 * jsEPSILON⌋ = 0 := by
      apply Int.floor_eq_zero_iff.mpr
      simp only [Set.mem_Ico]
      constructor
      · linarith [heps.1]
      · linarith [heps.2]
    omega
  have hR : ⌊(q : ℚ) + (r : ℚ) / 100⌋ = q := by
    rw [Int.floor_int_add]
    have hz : ⌊(r : ℚ) / 100⌋ = 0 := by
      apply Int.floor_eq_zero_iff.mpr
      simp only [Set.mem_Ico]
      constructor
      · linarith
      · linarith
    omega
  rw [hbase2, hbase, hL, hR]

theorem createBooking_eval (db : DB) (req : BookingReq) (code : String)
    (ts : Nat) (sheet : SheetState) {sid : Nat} {date st et : String} {s e : Nat}
    (hname : strFalsy req.name = false)
    (hsid : req.station_id = some sid) (hsid0 : sid ≠ 0)
    (hdate : req.booking_date = some date) (hdate0 : date ≠ "")
    (hst : req.start_time = some st) (het : req.end_time = some et)
    (hs : sqlTime? st = some s) (he : sqlTime? et = some e) (hlt : s < e) :
    createBooking db req code ts sheet =
      if 0 < (db.bookings.filter (conflictRow sid date s e)).length then
        (.conflict, db, .notCalled)
      else
        match db.stations.find? (fun x => x.id = sid) with
        | none => (.invalidStation, db, .notCalled)
        | some stn =>
          (.success (newBookingOf db req code ts sid date s e stn.rate_per_hour),
            { stations := db.stations
              bookings := db.bookings ++
                [newBookingOf db req code ts sid date s e stn.rate_per_hour]
              nextId := db.nextId + 1 },
            pushBookingToSheet sheet) := by
  have hstf : strFalsy req.start_time = false := by
    rw [hst]; simp [strFalsy, sqlTime?_ne_empty hs]
  have hetf : strFalsy req.end_time = false := by
    rw [het]; simp [strFalsy, sqlTime?_ne_empty he]
  have hsidf : natFalsy req.station_id = false := by
    rw [hsid]; simp [natFalsy, hsid0]
  have hdatef : strFalsy req.booking_date = false := by
    rw [hdate]; simp [strFalsy, hdate0]
  have hjsle : jsLe (.val (durQ s e)) (.val 0) = false := by
    simp [jsLe, not_le.mpr (durQ_pos hlt)]
  unfold createBooking
  rw [hname, hsidf, hdatef, hstf, hetf, hsid, hdate, hst, het]
  simp only [Bool.false_or, Bool.or_self, if_false, ite_false, Bool.false_eq_true]
  rw [computeDurationHours_of_sql hs he, hjsle]
  simp only [if_false, ite_false, Bool.false_eq_true]
  rw [hs, he]
  simp only [newBookingOf, priceQ, jsMul, jsAdd, jsRound, jsDivC, jsToQ]

theorem find_in_completed {l : List Booking} {id : Nat} {b' : Booking}
    (h : (l.map (fun b => if b.id = id then { b with status := "completed" } else b)).find?
      (fun b => b.id = id) = some b') :
    ∃ b ∈ l, b.id = id ∧ b' = { b with status := "completed" } := by
  induction l with
  | nil => simp at h
  | cons a tl ih =>
    rw [List.map_cons] at h
    by_cases ha : a.id = id
    · rw [if_pos ha, List.find?_cons_of_pos _ (by simp [ha])] at h
      exact ⟨a, List.mem_cons_self a tl, ha, (Option.some_injective _ h).symm⟩
    · rw [if_neg ha, List.find?_cons_of_neg _ (by simp [ha])] at h
      obtain ⟨b, hb, hbid, hbe⟩ := ih h
      exact ⟨b, List.mem_cons_of_mem _ hb, hbid, hbe⟩

theorem find_in_completed_exists {l : List Booking} {id : Nat}
    (h : ∃ b ∈ l, b.id = id) :
    ∃ b', (l.map (fun b => if b.id = id then { b with status := "completed" } else b)).find?
      (fun b => b.id = id) = some b' ∧ b'.status = "completed" := by
  induction l with
  | nil => simp at h
  | cons a tl ih =>
    rw [List.map_cons]
    by_cases ha : a.id = id
    · refine ⟨{ a with status := "completed" }, ?_, rfl⟩
      rw [if_pos ha, List.find?_cons_of_pos _ (by simp [ha])]
    · obtain ⟨b, hb, hbid⟩ := h
      rcases List.mem_cons.mp hb with hba | hbt
      · exact absurd (hba ▸ hbid) ha
      · obtain ⟨b', hb', hst⟩ := ih ⟨b, hbt, hbid⟩
        refine ⟨b', ?_, hst⟩
        rw [if_neg ha, List.find?_cons_of_neg _ (by simp [ha]), hb']

theorem completeBooking_eval (db : DB) (id : Nat) :
    completeBooking db id =
      (match (db.bookings.map
          (fun b => if b.id = id then { b with status := "completed" } else b)).find?
          (fun b => b.id = id) with
        | none => CompleteResult.notFound
        | some b => CompleteResult.success b,
       { stations := db.stations
         bookings := db.bookings.map
           (fun b => if b.id = id then { b with status := "completed" } else b)
         nextId := db.nextId }) := by
  cases hf : (db.bookings.map
      (fun b => if b.id = id then { b with status := "completed" } else b)).find?
      (fun b => b.id = id) with
  | none => simp only [completeBooking, hf]
  | some c => simp only [completeBooking, hf]

theorem completeBooking_success {db : DB} {id : Nat} {b' : Booking}
    (h : (completeBooking db id).1 = .success b') :
    ∃ b ∈ db.bookings, b.id = id ∧ b' = { b with status := "completed" } := by
  rw [completeBooking_eval] at h
  cases hf : (db.bookings.map
      (fun b => if b.id = id then { b with status := "completed" } else b)).find?
      (fun b => b.id = id) with
  | none => rw [hf] at h; exact absurd h (by simp)
  | some c =>
    rw [hf] at h
    simp only [CompleteResult.success.injEq] at h
    exact h ▸ find_in_completed hf

theorem completeBooking_state (db : DB) (id : Nat) :
    (completeBooking db id).2.bookings = db.bookings.map
      (fun b => if b.id = id then { b with status := "completed" } else b) ∧
    (completeBooking db id).2.stations = db.stations := by
  rw [completeBooking_eval]
  exact ⟨rfl, rfl⟩

theorem completeBooking_notFound {db : DB} {id : Nat}
    (h : ∀ b ∈ db.bookings, b.id ≠ id) :
    (completeBooking db id).1 = .notFound := by
  rw [completeBooking_eval]
  have hmap : db.bookings.map
      (fun b => if b.id = id then { b with status := "completed" } else b) = db.bookings :=
    (List.map_congr_left (fun b hb => if_neg (h b hb))).trans (List.map_id db.bookings)
  rw [hmap, List.find?_eq_none.mpr (by intro b hb; simp [h b hb])]

theorem completeBooking_exists {db : DB} {id : Nat}
    (h : ∃ b ∈ db.bookings, b.id = id) :
    ∃ b', (completeBooking db id).1 = .success b' ∧ b'.status = "completed" := by
  obtain ⟨b', hf, hst⟩ := find_in_completed_exists h
  refine ⟨b', ?_, hst⟩
  rw [completeBooking_eval, hf]

theorem find?_of_exists {α : Type} {p : α → Bool} {l : List α}
    (h : ∃ x ∈ l, p x = true) : ∃ y, l.find? p = some y := by
  induction l with
  | nil => simp at h
  | cons a t ih =>
    by_cases ha : p a = true
    · exact ⟨a, List.find?_cons_of_pos _ ha⟩
    · obtain ⟨x, hx, hpx⟩ := h
      rcases List.mem_cons.mp hx with hrf | hxt
      · exact absurd (hrf ▸ hpx) ha
      · obtain ⟨y, hy⟩ := ih ⟨x, hxt, hpx⟩
        exact ⟨y, by rw [List.find?_cons_of_neg _ ha, hy]⟩

theorem occupiesNow_iff (sid : Nat) (now : Wallclock) (b : ClientBooking) :
    occupiesNow sid now b = true ↔
      b.station_id = sid ∧ b.booking_date = now.date ∧ b.status ≠ "completed" ∧
      b.start_time * 60000 ≤ now.ms ∧ now.ms ≤ b.end_time * 60000 := by
  unfold occupiesNow
  by_cases h1 : b.station_id = sid
  · by_cases h2 : b.booking_date = now.date
    · by_cases h3 : b.status = "completed" <;> simp [h1, h2, h3]
    · simp [h1, h2]
  · simp [h1]

theorem computeStationStatus_occupied {bs : List ClientBooking} {sid : Nat}
    {now : Wallclock} {b : ClientBooking} {m : Int}
    (h : computeStationStatus bs sid now = .occupied b m) :
    b ∈ bs ∧ occupiesNow sid now b = true ∧ m = remainingMins b now := by
  unfold computeStationStatus at h
  cases hf : bs.find? (occupiesNow sid now) with
  | none => rw [hf] at h; exact absurd h (by simp)
  | some c =>
    rw [hf] at h
    simp only [LiveStatus.occupied.injEq] at h
    obtain ⟨hb, hm⟩ := h
    subst hb
    exact ⟨List.mem_of_find?_eq_some hf, List.find?_some hf, hm.symm⟩

theorem computeStationStatus_available {bs : List ClientBooking} {sid : Nat}
    {now : Wallclock} (h : ∀ b ∈ bs, occupiesNow sid now b = false) :
    computeStationStatus bs sid now = .available := by
  unfold computeStationStatus
  rw [List.find?_eq_none.mpr (by intro b hb; simp [h b hb])]

theorem computeStationStatus_exists {bs : List ClientBooking} {sid : Nat}
    {now : Wallclock} (h : ∃ b ∈ bs, occupiesNow sid now b = true) :
    ∃ b m, computeStationStatus bs sid now = .occupied b m := by
  obtain ⟨y, hy⟩ := find?_of_exists h
  exact ⟨y, remainingMins y now, by unfold computeStationStatus; rw [hy]⟩

theorem createBooking_success_inv {db : DB} {req : BookingReq} {code : String}
    {ts : Nat} {sheet : SheetState} {b : Booking}
    (h : (createBooking db req code ts sheet).1 = .success b) :
    ∃ sid date st et s e stn,
      req.station_id = some sid ∧ req.booking_date = some date ∧
      req.start_time = some st ∧ req.end_time = some et ∧
      sqlTime? st = some s ∧ sqlTime? et = some e ∧
      db.stations.find? (fun x => x.id = sid) = some stn ∧
      b = newBookingOf db req code ts sid date s e stn.rate_per_hour ∧
      (createBooking db req code ts sheet).2.1 =
        { stations := db.stations, bookings := db.bookings ++ [b]
          nextId := db.nextId + 1 } := by
  revert h
  simp only [createBooking]
  repeat' split
  all_goals intro h
  all_goals try exact CreateResult.noConfusion h
  all_goals replace h : CreateResult.success _ = CreateResult.success b := h
  all_goals injection h with hb
  all_goals subst hb
  all_goals
    exact ⟨_, _, _, _, _, _, _, by assumption, by assumption, by assumption,
      by assumption, by assumption, by assumption, by assumption,
      by simp [newBookingOf, jsToQ, priceQ, jsMul, jsAdd, jsRound, jsDivC,
        computeDurationHours_of_sql, *],
      rfl⟩

/-- Station fixture for concrete instances: id 1, rate 200.00 per hour. -/
def exStation : Station :=
  { id := 1, station_name := "Bekal Station", specs := "RTX 4080",
    status := "available", rate_per_hour := 200 }

/-- Booking fixture: a confirmed 14:00-15:00 booking of station 1. -/
def exBooking : Booking :=
  { id := 1, user_id := none, station_id := 1, booking_date := "2024-01-01",
    start_time := 840, end_time := 900, duration_hours := 1, total_price := 200,
    status := "confirmed", booking_code := "KB1", created_at := 0 }

/-- Database fixture: one station, one confirmed booking. -/
def exDB : DB := { stations := [exStation], bookings := [exBooking], nextId := 2 }

/-- Request fixture: an adjacent 15:00-16:00 slot on the same station and
date, with a client-supplied status field the handler never reads. -/
def exReq : BookingReq :=
  { name := some "Asha", contact := none, station_id := some 1,
    booking_date := some "2024-01-01", start_time := some "15:00",
    end_time := some "16:00", user_id := none, status := some "pending" }

/-- Request fixture with an inverted interval (15:00 to 14:00). -/
def exReqInverted : BookingReq :=
  { name := some "Asha", contact := none, station_id := some 1,
    booking_date := some "2024-01-01", start_time := some "15:00",
    end_time := some "14:00", user_id := none, status := none }

/-- Request fixture whose start_time is not of the form HH:MM. -/
def exReqBadTime : BookingReq :=
  { name := some "Asha", contact := none, station_id := some 1,
    booking_date := some "2024-01-01", start_time := some "aa:bb",
    end_time := some "10:00", user_id := none, status := none }

/-- Client-side fixture: a completed booking of station 1, 14:00-15:00. -/
def exCompletedCB : ClientBooking :=
  { station_id := 1, booking_date := "2024-01-01", start_time := 840,
    end_time := 900, status := "completed", user_name := "Asha" }

/-- A wall clock inside that interval: 14:30 on the same date. -/
def exNowInside : Wallclock := { date := "2024-01-01", ms := 52200000 }

/-- Client-side fixture: a legacy booking with status "Active" (not
confirmed) of station 1, 10:00-11:00. -/
def exActiveCB : ClientBooking :=
  { station_id := 1, booking_date := "2024-01-01", start_time := 600,
    end_time := 660, status := "Active", user_name := "Ravi" }

/-- A wall clock exactly at that booking's end: 11:00 on the same date. -/
def exNowAtEnd : Wallclock := { date := "2024-01-01", ms := 39600000 }

/-- Client-side fixture: a confirmed booking of station 1, 10:00-11:00. -/
def exConfirmedCB : ClientBooking :=
  { station_id := 1, booking_date := "2024-01-01", start_time := 600,
    end_time := 660, status := "confirmed", user_name := "Ravi" }

/-- A wall clock inside that interval: 10:30 on the same date. -/
def exNowMid : Wallclock := { date := "2024-01-01", ms := 37800000 }

/-- C5: the live-status computation never reports a station occupied by a
booking whose status is completed, and when every booking of this station
dated today whose interval contains `now` is completed — in particular
immediately after complete() succeeds on the occupying booking — the
result is AVAILABLE even though `now` still lies inside the original
interval. -/
theorem live_status_never_occupied_by_completed (bs : List ClientBooking)
    (sid : Nat) (now : Wallclock) :
    (∀ b m, computeStationStatus bs sid now = .occupied b m →
      b.status ≠ "completed") ∧
    ((∀ b ∈ bs, b.station_id = sid → b.booking_date = now.date →
        b.start_time * 60000 ≤ now.ms → now.ms ≤ b.end_time * 60000 →
        b.status = "completed") →
      computeStationStatus bs sid now = .available) := by
  constructor
  · intro b m h
    exact ((occupiesNow_iff sid now b).mp
      (computeStationStatus_occupied h).2.1).2.2.1
  · intro h
    apply computeStationStatus_available
    intro b hb
    rw [Bool.eq_false_iff, Ne, occupiesNow_iff]
    rintro ⟨h1, h2, h3, h4, h5⟩
    exact h3 (h b hb h1 h2 h4 h5)

/-- C6 counterexample: station 1 carries a single booking with the legacy
status "Active" (not confirmed) over 10:00-11:00, and `now` is exactly
11:00.  The claim says only a confirmed booking whose half-open interval
contains `now` can occupy — so here AVAILABLE — but the code reports
OCCUPIED by that booking with 0 minutes remaining: its selector keeps
every non-completed status and its containment test is closed at the end
(`now <= end`). -/
theorem live_status_closed_interval_counterexample :
    computeStationStatus [exActiveCB] 1 exNowAtEnd = .occupied exActiveCB 0 ∧
    exActiveCB.status ≠ "confirmed" ∧
    exNowAtEnd.ms = exActiveCB.end_time * 60000 := by
  refine ⟨?_, by decide, by decide⟩
  decide

/-- C6 (amended): the live-status computation selects as occupying the
booking for this station dated today whose status is not "completed" and
whose closed interval [start, end] contains `now` — a booking whose
end_time equals `now` is still occupying — reporting
time_remaining = max(0, ⌊(end − now) / 60000 ms⌋) whole minutes; when some
listed booking satisfies these conditions the result is OCCUPIED, and with
none it is AVAILABLE. -/
theorem live_status_selection_characterization (bs : List ClientBooking)
    (sid : Nat) (now : Wallclock) :
    (∀ b m, computeStationStatus bs sid now = .occupied b m →
      b ∈ bs ∧ b.station_id = sid ∧ b.booking_date = now.date ∧
      b.status ≠ "completed" ∧ b.start_time * 60000 ≤ now.ms ∧
      now.ms ≤ b.end_time * 60000 ∧
      m = max 0 (((b.end_time * 60000 : Int) - (now.ms : Int)).fdiv 60000)) ∧
    ((∃ b ∈ bs, b.station_id = sid ∧ b.booking_date = now.date ∧
        b.status ≠ "completed" ∧ b.start_time * 60000 ≤ now.ms ∧
        now.ms ≤ b.end_time * 60000) →
      ∃ b m, computeStationStatus bs sid now = .occupied b m) ∧
    ((∀ b ∈ bs, ¬(b.station_id = sid ∧ b.booking_date = now.date ∧
        b.status ≠ "completed" ∧ b.start_time * 60000 ≤ now.ms ∧
        now.ms ≤ b.end_time * 60000)) →
      computeStationStatus bs sid now = .available) := by
  refine ⟨?_, ?_, ?_⟩
  · intro b m h
    obtain ⟨hmem, hocc, hm⟩ := computeStationStatus_occupied h
    obtain ⟨h1, h2, h3, h4, h5⟩ := (occupiesNow_iff sid now b).mp hocc
    exact ⟨hmem, h1, h2, h3, h4, h5, hm⟩
  · rintro ⟨b, hb, hc⟩
    exact computeStationStatus_exists ⟨b, hb, (occupiesNow_iff sid now b).mpr hc⟩
  · intro h
    apply computeStationStatus_available
    intro b hb
    rw [Bool.eq_false_iff, Ne, occupiesNow_iff]
    exact h b hb

/-- C2 counterexample: on a store holding the confirmed booking 1, two
successive complete() calls on id 1 both return success — the second does
not fail with an invalid-state error (the handler's UPDATE filters on id
only and its sole failure is the 404), contradicting the claim that the
second call must fail. -/
theorem complete_twice_succeeds_counterexample :
    (completeBooking exDB 1).1 =
      .success { exBooking with status := "completed" } ∧
    (completeBooking (completeBooking exDB 1).2 1).1 =
      .success { exBooking with status := "completed" } := by
  constructor <;> decide

/-- C2 (amended): complete() on a booking_id with no matching row fails
with NotFoundError (the 404), and on any existing booking it succeeds and
returns the row with status "completed" — including when the booking was
already completed, so two successive complete() calls on an existing
confirmed booking yield success then success again, the code having no
invalid-state error. -/
theorem complete_notfound_else_succeeds (db : DB) (id : Nat) :
    ((∀ b ∈ db.bookings, b.id ≠ id) → (completeBooking db id).1 = .notFound) ∧
    ((∃ b ∈ db.bookings, b.id = id) →
      (∃ b', (completeBooking db id).1 = .success b' ∧
        b'.status = "completed") ∧
      (∃ b'', (completeBooking (completeBooking db id).2 id).1 = .success b'' ∧
        b''.status = "completed")) := by
  refine ⟨fun h => completeBooking_notFound h, fun h => ⟨completeBooking_exists h, ?_⟩⟩
  apply completeBooking_exists
  obtain ⟨b, hb, hid⟩ := h
  refine ⟨{ b with status := "completed" }, ?_, hid⟩
  rw [(completeBooking_state db id).1]
  exact List.mem_map.mpr ⟨b, hb, by rw [if_pos hid]⟩

/-- C8: whenever complete() succeeds, the returned row agrees with a stored
booking of that id on every field except status (which becomes
"completed"); the stations table is untouched, and the bookings table
changes only by setting status to "completed" on the rows of that id. -/
theorem complete_changes_only_status (db : DB) (id : Nat) (b' : Booking)
    (h : (completeBooking db id).1 = .success b') :
    (∃ b ∈ db.bookings, b.id = id ∧ b'.id = b.id ∧ b'.user_id = b.user_id ∧
      b'.station_id = b.station_id ∧ b'.booking_date = b.booking_date ∧
      b'.start_time = b.start_time ∧ b'.end_time = b.end_time ∧
      b'.duration_hours = b.duration_hours ∧ b'.total_price = b.total_price ∧
      b'.booking_code = b.booking_code ∧ b'.created_at = b.created_at ∧
      b'.status = "completed") ∧
    (completeBooking db id).2.stations = db.stations ∧
    (completeBooking db id).2.bookings = db.bookings.map
      (fun x => if x.id = id then { x with status := "completed" } else x) := by
  obtain ⟨b, hb, hid, hbe⟩ := completeBooking_success h
  subst hbe
  exact ⟨⟨b, hb, hid, rfl, rfl, rfl, rfl, rfl, rfl, rfl, rfl, rfl, rfl, rfl⟩,
    (completeBooking_state db id).2, (completeBooking_state db id).1⟩

/-- C8 witness: completing booking 1 of the fixture store succeeds and the
update touches only the status field. -/
theorem complete_changes_only_status_witness :
    ∃ b ∈ exDB.bookings, b.id = 1 ∧
      ({ exBooking with status := "completed" } : Booking).id = b.id ∧
      ({ exBooking with status := "completed" } : Booking).user_id = b.user_id ∧
      ({ exBooking with status := "completed" } : Booking).station_id = b.station_id ∧
      ({ exBooking with status := "completed" } : Booking).booking_date = b.booking_date ∧
      ({ exBooking with status := "completed" } : Booking).start_time = b.start_time ∧
      ({ exBooking with status := "completed" } : Booking).end_time = b.end_time ∧
      ({ exBooking with status := "completed" } : Booking).duration_hours = b.duration_hours ∧
      ({ exBooking with status := "completed" } : Booking).total_price = b.total_price ∧
      ({ exBooking with status := "completed" } : Booking).booking_code = b.booking_code ∧
      ({ exBooking with status := "completed" } : Booking).created_at = b.created_at ∧
      ({ exBooking with status := "completed" } : Booking).status = "completed" :=
  (complete_changes_only_status exDB 1 { exBooking with status := "completed" }
    (by decide)).1

/-- C7: the Mirror Sink never influences the HTTP result or the stored
state of create(): for any two sheet states (unconfigured, reachable,
unreachable) the response and the database after the call coincide, and a
request that succeeds still succeeds — with its row persisted — when the
sheet write fails. -/
theorem create_mirror_isolated (db : DB) (req : BookingReq) (code : String)
    (ts : Nat) (s1 s2 : SheetState) :
    (createBooking db req code ts s1).1 = (createBooking db req code ts s2).1 ∧
    (createBooking db req code ts s1).2.1 = (createBooking db req code ts s2).2.1 ∧
    (∀ b, (createBooking db req code ts s1).1 = .success b →
      (createBooking db req code ts .unreachable).1 = .success b ∧
      (createBooking db req code ts .unreachable).2.1.bookings =
        db.bookings ++ [b]) := by
  have hfst : ∀ sA sB : SheetState,
      (createBooking db req code ts sA).1 = (createBooking db req code ts sB).1 ∧
      (createBooking db req code ts sA).2.1 = (createBooking db req code ts sB).2.1 := by
    intro sA sB
    simp only [createBooking]
    (repeat' split) <;> exact ⟨rfl, rfl⟩
  refine ⟨(hfst s1 s2).1, (hfst s1 s2).2, ?_⟩
  intro b hb
  have hun : (createBooking db req code ts .unreachable).1 = .success b :=
    ((hfst .unreachable s1).1).trans hb
  obtain ⟨_, _, _, _, _, _, _, _, _, _, _, _, _, _, _, hdb⟩ :=
    createBooking_success_inv hun
  exact ⟨hun, by rw [hdb]⟩

/-- Concrete successful create: the adjacent 15:00-16:00 request on the
fixture store goes through, independently of the sheet, and returns the
inserted row. -/
theorem exCreateSuccess :
    (createBooking exDB exReq "KB2" 5 .unconfigured).1 =
      .success (newBookingOf exDB exReq "KB2" 5 1 "2024-01-01" 900 960
        exStation.rate_per_hour) := by
  rw [@createBooking_eval exDB exReq "KB2" 5 .unconfigured 1 "2024-01-01"
    "15:00" "16:00" 900 960 (by decide) rfl (by decide) rfl (by decide) rfl rfl
    (by decide) (by decide) (by decide)]
  rw [if_neg (by decide)]
  rfl

/-- C9: every row written by a successful create() carries the literal
status "confirmed", whatever status value the request body supplied, and
the bookings table grows exactly by that row. -/
theorem create_status_always_confirmed (db : DB) (req : BookingReq)
    (code : String) (ts : Nat) (sheet : SheetState) (b : Booking)
    (h : (createBooking db req code ts sheet).1 = .success b) :
    b.status = "confirmed" ∧
    (createBooking db req code ts sheet).2.1.bookings = db.bookings ++ [b] := by
  obtain ⟨sid, date, st, et, s, e, stn, _, _, _, _, _, _, _, hb, hdb⟩ :=
    createBooking_success_inv h
  exact ⟨by rw [hb]; rfl, by rw [hdb]⟩

/-- C9 witness: the fixture request carries status "pending", yet the row
created for it has status "confirmed". -/
theorem create_status_always_confirmed_witness :
    (newBookingOf exDB exReq "KB2" 5 1 "2024-01-01" 900 960
        exStation.rate_per_hour).status = "confirmed" ∧
    (createBooking exDB exReq "KB2" 5 .unconfigured).2.1.bookings =
      exDB.bookings ++ [newBookingOf exDB exReq "KB2" 5 1 "2024-01-01" 900 960
        exStation.rate_per_hour] :=
  create_status_always_confirmed exDB exReq "KB2" 5 .unconfigured _ exCreateSuccess

/-- C10: a create() request whose start_time is "aa:bb" — not of the form
HH:MM — makes `timeToMinutes` produce NaN, so `computeDurationHours` is
NaN, the `dur <= 0` guard does not fire (NaN compares false), and the
request proceeds past time validation: it is not rejected with a
validation error but reaches the SQL layer, whose cast failure surfaces as
the generic 500. -/
theorem bad_time_passes_validation :
    computeDurationHours "aa:bb" "10:00" = .nan ∧
    jsLe (computeDurationHours "aa:bb" "10:00") (.val 0) = false ∧
    (createBooking exDB exReqBadTime "KB3" 6 .unconfigured).1 = .dbError ∧
    (createBooking exDB exReqBadTime "KB3" 6 .unconfigured).2.1 = exDB := by
  exact ⟨by decide, by decide, by decide, by decide⟩

/-- C3: a request whose parsed end time is not after its parsed start time
is rejected by validation — the missing-fields or the time-order guard —
with the store untouched, whatever the other fields contain. -/
theorem create_rejects_inverted_interval (db : DB) (req : BookingReq)
    (code : String) (ts : Nat) (sheet : SheetState) (st et : String) (s e : Nat)
    (hst : req.start_time = some st) (het : req.end_time = some et)
    (hs : sqlTime? st = some s) (he : sqlTime? et = some e) (hle : e ≤ s) :
    ((createBooking db req code ts sheet).1 = .missingFields ∨
      (createBooking db req code ts sheet).1 = .invalidTimeOrder) ∧
    (createBooking db req code ts sheet).2.1 = db := by
  simp only [createBooking]
  split
  · exact ⟨Or.inl rfl, rfl⟩
  · split
    · rename_i sid2 date2 st2 et2 hsid2 hdate2 hst2 het2
      rw [hst] at hst2
      rw [het] at het2
      injection hst2 with hsteq
      injection het2 with heteq
      subst hsteq
      subst heteq
      rw [computeDurationHours_of_sql hs he]
      have hguard : jsLe (JSNum.val (durQ s e)) (JSNum.val 0) = true := by
        simp [jsLe, durQ_nonpos hle]
      rw [if_pos hguard]
      exact ⟨Or.inr rfl, rfl⟩
    · exact ⟨Or.inl rfl, rfl⟩

/-- C3 witness: the 15:00-to-14:00 request on the fixture store is
rejected by validation and writes nothing. -/
theorem create_rejects_inverted_interval_witness :
    ((createBooking exDB exReqInverted "KB4" 6 .unconfigured).1 = .missingFields ∨
      (createBooking exDB exReqInverted "KB4" 6 .unconfigured).1 = .invalidTimeOrder) ∧
    (createBooking exDB exReqInverted "KB4" 6 .unconfigured).2.1 = exDB :=
  create_rejects_inverted_interval exDB exReqInverted "KB4" 6 .unconfigured
    "15:00" "14:00" 900 840 rfl rfl (by decide) (by decide) (by decide)

/-- C1: for a well-formed request (required fields present, both times
parsing to minutes with start < end) on a store whose bookings all have
status "confirmed" or "completed", create() returns the conflict error iff
some confirmed booking of the same station and date overlaps the candidate
under half-open semantics — NOT (end1 ≤ start2 OR start1 ≥ end2) — and
when no confirmed booking overlaps (in particular when an existing booking
merely touches the candidate at an endpoint) and the station exists, the
request is accepted. -/
theorem create_conflict_iff_overlap (db : DB) (req : BookingReq) (code : String)
    (ts : Nat) (sheet : SheetState) (sid : Nat) (date st et : String) (s e : Nat)
    (hname : strFalsy req.name = false)
    (hsid : req.station_id = some sid) (hsid0 : sid ≠ 0)
    (hdate : req.booking_date = some date) (hdate0 : date ≠ "")
    (hst : req.start_time = some st) (het : req.end_time = some et)
    (hs : sqlTime? st = some s) (he : sqlTime? et = some e) (hlt : s < e)
    (hwf : ∀ b ∈ db.bookings, b.status = "confirmed" ∨ b.status = "completed") :
    ((createBooking db req code ts sheet).1 = .conflict ↔
      ∃ b ∈ db.bookings, b.status = "confirmed" ∧ b.station_id = sid ∧
        b.booking_date = date ∧ ¬(b.end_time ≤ s ∨ b.start_time ≥ e)) ∧
    ((∀ b ∈ db.bookings, b.status = "confirmed" → b.station_id = sid →
        b.booking_date = date → b.end_time ≤ s ∨ b.start_time ≥ e) →
      (∃ stn ∈ db.stations, stn.id = sid) →
      ∃ nb, (createBooking db req code ts sheet).1 = .success nb) := by
  rw [createBooking_eval db req code ts sheet hname hsid hsid0 hdate hdate0
    hst het hs he hlt]
  have hconf : 0 < (db.bookings.filter (conflictRow sid date s e)).length ↔
      ∃ b ∈ db.bookings, b.status = "confirmed" ∧ b.station_id = sid ∧
        b.booking_date = date ∧ ¬(b.end_time ≤ s ∨ b.start_time ≥ e) := by
    rw [List.length_pos]
    constructor
    · intro hne
      obtain ⟨b, hb⟩ := List.exists_mem_of_ne_nil _ hne
      obtain ⟨hmem, hcr⟩ := List.mem_filter.mp hb
      simp only [conflictRow, Bool.and_eq_true, Bool.or_eq_true,
        decide_eq_true_eq, Bool.not_eq_true', Bool.or_eq_false_iff,
        decide_eq_false_iff_not, not_le, not_lt] at hcr
      obtain ⟨⟨⟨hsid', hdate'⟩, hstatus⟩, hov1, hov2⟩ := hcr
      have hconfirmed : b.status = "confirmed" := by
        rcases hwf b hmem with hc | hc
        · exact hc
        · rcases hstatus with h1 | h1 <;> rw [hc] at h1 <;> exact absurd h1 (by decide)
      exact ⟨b, hmem, hconfirmed, hsid', hdate', by omega⟩
    · rintro ⟨b, hb, hc, hsid', hdate', hov⟩
      intro hnil
      have hmem : b ∈ db.bookings.filter (conflictRow sid date s e) := by
        rw [List.mem_filter]
        refine ⟨hb, ?_⟩
        simp only [conflictRow, Bool.and_eq_true, Bool.or_eq_true,
          decide_eq_true_eq, Bool.not_eq_true', Bool.or_eq_false_iff,
          decide_eq_false_iff_not, not_le, not_lt]
        exact ⟨⟨⟨hsid', hdate'⟩, Or.inl hc⟩, by omega, by omega⟩
      rw [hnil] at hmem
      exact absurd hmem (List.not_mem_nil b)
  by_cases hcond : 0 < (db.bookings.filter (conflictRow sid date s e)).length
  · rw [if_pos hcond]
    refine ⟨⟨fun _ => hconf.mp hcond, fun _ => rfl⟩, ?_⟩
    intro hno _
    exfalso
    obtain ⟨b, hb, hc, hsid', hdate', hov⟩ := hconf.mp hcond
    exact hov (hno b hb hc hsid' hdate')
  · rw [if_neg hcond]
    refine ⟨⟨?_, fun hex => absurd (hconf.mpr hex) hcond⟩, ?_⟩
    · intro habs
      exfalso
      revert habs
      cases hf : db.stations.find? (fun x => x.id = sid) with
      | none => intro habs; exact CreateResult.noConfusion habs
      | some stn => intro habs; exact CreateResult.noConfusion habs
    · rintro hno ⟨stn, hstn, hstnid⟩
      obtain ⟨stn', hf⟩ := @find?_of_exists Station (fun x => decide (x.id = sid))
        db.stations ⟨stn, hstn, decide_eq_true hstnid⟩
      rw [hf]
      exact ⟨_, rfl⟩

/-- C1 witness: on the fixture store (one confirmed 14:00-15:00 booking of
station 1) the adjacent 15:00-16:00 request is characterized by the
overlap test: it is not a conflict, since touching intervals do not
overlap under the half-open test. -/
theorem create_conflict_iff_overlap_witness :
    ((createBooking exDB exReq "KB2" 5 .unconfigured).1 = .conflict ↔
      ∃ b ∈ exDB.bookings, b.status = "confirmed" ∧ b.station_id = 1 ∧
        b.booking_date = "2024-01-01" ∧
        ¬(b.end_time ≤ 900 ∨ b.start_time ≥ 960)) ∧
    ((∀ b ∈ exDB.bookings, b.status = "confirmed" → b.station_id = 1 →
        b.booking_date = "2024-01-01" → b.end_time ≤ 900 ∨ b.start_time ≥ 960) →
      (∃ stn ∈ exDB.stations, stn.id = 1) →
      ∃ nb, (createBooking exDB exReq "KB2" 5 .unconfigured).1 = .success nb) :=
  create_conflict_iff_overlap exDB exReq "KB2" 5 .unconfigured 1 "2024-01-01"
    "15:00" "16:00" 900 960 (by decide) rfl (by decide) rfl (by decide) rfl rfl
    (by decide) (by decide) (by decide) (by decide)

/-- C4: on a store whose station rates are exact two-decimal amounts (the
DECIMAL(10,2) column), every successfully created booking has
duration_hours = round2((end − start) in hours) and
total_price = round2(duration_hours × the station's stored rate_per_hour),
both derived by the handler — the request body has no price or duration
field at all.  round2 x = ⌊x·100 + 1/2⌋ / 100 is JS
Math.round half-up rounding to 2 decimals; the Number.EPSILON the code adds
before rounding provably never changes the result on such inputs. -/
theorem create_price_from_station_rate (db : DB) (req : BookingReq)
    (code : String) (ts : Nat) (sheet : SheetState) (b : Booking)
    (hrate : ∀ stn ∈ db.stations, ∃ c : ℕ, stn.rate_per_hour = (c : ℚ) / 100)
    (h : (createBooking db req code ts sheet).1 = .success b) :
    ∃ st et s e stn, req.start_time = some st ∧ req.end_time = some et ∧
      sqlTime? st = some s ∧ sqlTime? et = some e ∧
      stn ∈ db.stations ∧ req.station_id = some stn.id ∧
      b.duration_hours =
        ((⌊((e : ℚ) - (s : ℚ)) / 60 * 100 + 1/2⌋ : ℤ) : ℚ) / 100 ∧
      b.total_price =
        ((⌊b.duration_hours * stn.rate_per_hour * 100 + 1/2⌋ : ℤ) : ℚ) / 100 := by
  obtain ⟨sid, date, st, et, s, e, stn, hsid, hdate, hst, het, hs, he, hstn, hb, hdb⟩ :=
    createBooking_success_inv h
  subst hb
  have hmem : stn ∈ db.stations := List.mem_of_find?_eq_some hstn
  have hid : stn.id = sid := by
    have hp := List.find?_some hstn
    simpa using hp
  obtain ⟨c, hc⟩ := hrate stn hmem
  refine ⟨st, et, s, e, stn, hst, het, hs, he, hmem, by rw [hid]; exact hsid, rfl, ?_⟩
  show priceQ (durQ s e) stn.rate_per_hour =
    ((⌊durQ s e * stn.rate_per_hour * 100 + 1/2⌋ : ℤ) : ℚ) / 100
  have hd : durQ s e = ((⌊((e : ℚ) - (s : ℚ)) / 60 * 100 + 1/2⌋ : ℤ) : ℚ) / 100 := rfl
  set A : ℤ := ⌊((e : ℚ) - (s : ℚ)) / 60 * 100 + 1/2⌋ with hA
  have h1 : (durQ s e * stn.rate_per_hour + jsEPSILON) * 100 + 1/2
      = ((A * (c : ℤ) : ℤ) : ℚ) / 100 + 100 * jsEPSILON + 1/2 := by
    rw [hd, hc]; push_cast; ring
  have h2 : durQ s e * stn.rate_per_hour * 100 + 1/2
      = ((A * (c : ℤ) : ℤ) : ℚ) / 100 + 1/2 := by
    rw [hd, hc]; push_cast; ring
  unfold priceQ
  rw [h1, floor_eps_eq (A * (c : ℤ)), ← h2]

/-- C4 witness: on the fixture store (rate 200.00) the created 15:00-16:00
row satisfies the derived duration and price formulas. -/
theorem create_price_from_station_rate_witness :
    ∃ st et s e stn, exReq.start_time = some st ∧ exReq.end_time = some et ∧
      sqlTime? st = some s ∧ sqlTime? et = some e ∧
      stn ∈ exDB.stations ∧ exReq.station_id = some stn.id ∧
      (newBookingOf exDB exReq "KB2" 5 1 "2024-01-01" 900 960
          exStation.rate_per_hour).duration_hours =
        ((⌊((e : ℚ) - (s : ℚ)) / 60 * 100 + 1/2⌋ : ℤ) : ℚ) / 100 ∧
      (newBookingOf exDB exReq "KB2" 5 1 "2024-01-01" 900 960
          exStation.rate_per_hour).total_price =
        ((⌊(newBookingOf exDB exReq "KB2" 5 1 "2024-01-01" 900 960
            exStation.rate_per_hour).duration_hours * stn.rate_per_hour * 100
          + 1/2⌋ : ℤ) : ℚ) / 100 :=
  create_price_from_station_rate exDB exReq "KB2" 5 .unconfigured _
    (by
      intro stn hstn
      have hstn2 : stn = exStation := by simpa [exDB] using hstn
      subst hstn2
      exact ⟨20000, by norm_num [exStation]⟩)
    exCreateSuccess
